import Mathlib

/-!
Verification of `playerprefs.py` (conqp/playerprefs): a fixed-schema,
comma-delimited codec for an Among Us player-preferences record.

The Python source is shallowly embedded below:
  * `pyInt` models `int(token)` on strings (base-10, optional sign,
    surrounding ASCII whitespace stripped; Python's underscore digit
    grouping and non-ASCII digits are not exercised by this codec and
    are not modelled),
  * `BOOL` models the module-level dict `BOOL = {'True': True, 'False': False}`
    and its `BOOL[token]` lookup (a failed lookup is a `KeyError`),
  * each `IntEnum` subclass becomes its ordered `(name, code)` member list
    exactly as written in the source, with Python's first-definition-wins
    rule for duplicate codes (`Hat.NINJA_MASK` is an alias of `Hat.MINIME`),
  * `U8` becomes its construction-time parse + range check,
  * `PlayerPrefs` becomes a 22-field structure, with `from_list`,
    `from_string` and `__str__` (here `PlayerPrefs.str`) translated
    operation for operation; `dataclassInit` models the `@dataclass`
    generated `__init__`, which only assigns fields.

Raised Python exceptions are modelled by `Except ErrKind`; `ErrKind.pyClass`
records which Python exception class each failure site raises.
-/

/-- The distinct failure sites of the codec, one constructor per `raise`
site (or raising lookup) in the source. -/
inductive ErrKind where
  /-- `from_list`: `raise ValueError('Excpected iterable with 22 fields.')`. -/
  | wrongFieldCount
  /-- `int(token)` cannot parse the token: `ValueError`. -/
  | invalidIntLiteral
  /-- `IntEnum` call on a code that is not a defined member: `ValueError`. -/
  | undefinedEnumCode
  /-- `U8.__init__`: `raise ValueError('UInt7 must be between 0 and 255.')`. -/
  | outOfRange
  /-- `BOOL[token]` on a key other than `'True'`/`'False'`: `KeyError`. -/
  | boolKeyLookup
deriving DecidableEq, Repr

/-- The Python exception classes raised by the codec's failure sites. -/
inductive PyExcClass where
  | valueError
  | keyError
deriving DecidableEq, Repr

/-- Which Python exception class each failure site raises: all are
`ValueError` except the `BOOL` dict lookup, which is a `KeyError`. -/
def ErrKind.pyClass : ErrKind → PyExcClass
  | .boolKeyLookup => .keyError
  | _ => .valueError

/-- ASCII decimal digit test, `'0' ≤ c ≤ '9'`. -/
def isAsciiDigit (c : Char) : Bool :=
  '0' ≤ c && c ≤ '9'

/-- Numeric value of an ASCII digit character. -/
def digitVal (c : Char) : Nat :=
  c.toNat - '0'.toNat

/-- The ASCII character of a decimal digit (0–9). -/
def digitChar : Nat → Char
  | 0 => '0' | 1 => '1' | 2 => '2' | 3 => '3' | 4 => '4'
  | 5 => '5' | 6 => '6' | 7 => '7' | 8 => '8' | 9 => '9'
  | _ => '?'

/-- ASCII whitespace stripped by Python's `int(str)`. -/
def isPySpace (c : Char) : Bool :=
  c = ' ' || c = '\t' || c = '\n' || c = '\r' || c = '\x0b' || c = '\x0c'

/-- Strip leading and trailing whitespace from a character list, as
`int(str)` does before parsing. -/
def pyTrim (l : List Char) : List Char :=
  ((l.dropWhile isPySpace).reverse.dropWhile isPySpace).reverse

/-- Value of a big-endian ASCII digit string. -/
def digitsToNat (l : List Char) : Nat :=
  l.foldl (fun a c => 10 * a + digitVal c) 0

/-- Parse a nonempty all-digit character list to its (nonnegative) value;
anything else is the `int()` `ValueError`. -/
def parseDigits (l : List Char) : Except ErrKind Int :=
  if l.isEmpty then .error .invalidIntLiteral
  else if l.all isAsciiDigit then .ok (digitsToNat l : Nat)
  else .error .invalidIntLiteral

/-- Python `int(token)`: strip surrounding whitespace, allow one optional
`+`/`-` sign, then base-10 digits. -/
def pyInt (s : String) : Except ErrKind Int :=
  match pyTrim s.data with
  | [] => .error .invalidIntLiteral
  | c :: rest =>
      if c = '-' then (parseDigits rest).map (fun n => -n)
      else if c = '+' then parseDigits rest
      else parseDigits (c :: rest)

/-- Big-endian decimal digits of `n`; the first argument is recursion fuel,
sufficient whenever `n ≤ fuel`. -/
def natDigitsAux : Nat → Nat → List Char
  | 0, n => [digitChar n]
  | fuel + 1, n =>
      if n < 10 then [digitChar n]
      else natDigitsAux fuel (n / 10) ++ [digitChar (n % 10)]

/-- Characters of Python `str(i)` for an int: canonical decimal, `-` sign
for negatives. -/
def intChars (i : Int) : List Char :=
  if i < 0 then '-' :: natDigitsAux i.natAbs i.natAbs
  else natDigitsAux i.toNat i.toNat

/-- Python `str(i)` for an int (also `Control.__str__` etc., which return
`str(self.value)`, and `str` of a `U8`). -/
def pyStrInt (i : Int) : String :=
  ⟨intChars i⟩

/-- Python `str(b)` for a bool: the literals `True` / `False`. -/
def pyStrBool : Bool → String
  | true => "True"
  | false => "False"

/-- The module-level dict `BOOL = {'True': True, 'False': False}`; lookup
of any other key raises `KeyError`. -/
def BOOL : String → Except ErrKind Bool
  | "True" => .ok true
  | "False" => .ok false
  | _ => .error .boolKeyLookup

/-- Python `string.split(',')` on the character list: the empty string
yields one empty field, and every comma starts a new field. -/
def splitComma : List Char → List (List Char)
  | [] => [[]]
  | c :: rest =>
      let r := splitComma rest
      if c = ',' then [] :: r
      else
        match r with
        | h :: t => (c :: h) :: t
        | [] => [[c]]

/-- Python `','.join(...)` on character lists. -/
def joinComma : List (List Char) → List Char
  | [] => []
  | [t] => t
  | t :: ts => t ++ ',' :: joinComma ts

/-- `class Control(IntEnum)`: members in definition order. -/
def Control.members : List (String × Int) :=
  [("MOUSE", 0), ("MOUSE_AND_KEYBOARD", 1)]

/-- `class Color(IntEnum)`: members in definition order. -/
def Color.members : List (String × Int) :=
  [("RED", 0), ("BLUE", 1), ("GREEN", 2), ("PINK", 3), ("ORANGE", 4),
   ("YELLOW", 5), ("BLACK", 6), ("WHITE", 7), ("PURPLE", 8), ("BROWN", 9),
   ("CYAN", 10), ("LIME", 11)]

/-- `class Hat(IntEnum)`: members in definition order, including the
duplicate code 90 (`MINIME` first, `NINJA_MASK` second). -/
def Hat.members : List (String × Int) :=
  [("NONE", 0), ("PARTY", 28), ("FEDORA", 43), ("SKI", 44),
   ("SURGICAL_MASK", 47), ("COWBOY", 49), ("BANANA", 50), ("BALACLAVA", 51),
   ("MOUSE_EARS", 52), ("CHEESE", 53), ("CHERRY", 54), ("FRIED_EGG", 55),
   ("BLACK_HAT", 56), ("FLAMINGO", 57), ("FLOWER", 58), ("ROMAN", 59),
   ("LEAVES", 60), ("CROWN", 30), ("EYEBROWS", 31), ("HALO", 32),
   ("POINTED_HAT", 33), ("DIVING_GOGGLES", 36), ("STICKMAN", 37),
   ("TELESCOPE_EYE", 40), ("TOILET_PAPER", 41), ("LEPRECHAUN", 42),
   ("FLAT_CAP", 34), ("PLUNGER", 35), ("TOPEE", 38), ("SHERRIFF", 39),
   ("ANTENNA", 76), ("ASTRONAUT", 1), ("BALLOON", 77), ("BASEBALL_CAP", 2),
   ("NEST", 78), ("NINJA_HEADBAND", 79), ("ALIEN", 3), ("BROWN_HAT", 4),
   ("PILOT", 5), ("WET_FLOOR_SIGN", 80), ("CHEF", 81), ("BLUE_HAT", 82),
   ("BANDANA", 83), ("DOUBLE_TOP_HAT", 6), ("STICKY_NOTE", 84), ("FEZ", 85),
   ("FLOWER_POT", 7), ("PILOT_GREEN", 86), ("NIGHT_VISION", 8),
   ("ELVIS", 87), ("BUILDING_SITE", 9), ("UNKNOWN", 88), ("SOLDIER", 89),
   ("OFFICER", 10), ("MINIME", 90), ("NINJA_MASK", 90), ("PAPER", 11),
   ("CLOWN", 12), ("POLICE", 13), ("HORNS", 92), ("BOBBLE", 93),
   ("SURGEON", 14), ("TOPHAT", 15), ("TOWEL", 16), ("BEARSKIN", 17),
   ("VIKING", 18), ("SECURITY", 19), ("WHITE_TOPHAT", 29)]

/-- `class Skin(IntEnum)`: members in definition order. -/
def Skin.members : List (String × Int) :=
  [("NONE", 0), ("ASTRONAUT", 1), ("PILOT", 2), ("BLUEY", 3),
   ("SOLDIER", 4), ("POLICE", 5), ("LAB_COAT", 6), ("SUIT_BLACK", 7),
   ("SUIT_WHITE", 8), ("SECURITY", 9)]

/-- `class Pet(IntEnum)`: members in definition order. -/
def Pet.members : List (String × Int) :=
  [("NONE", 0)]

/-- `class Language(IntEnum)`: members in definition order. -/
def Language.members : List (String × Int) :=
  [("ENGLISH", 0), ("SPANISH", 1), ("PORTOGUESE", 2), ("KOREAN", 3),
   ("RUSSIAN", 4)]

/-- Whether an integer is a defined code of the enumeration. -/
def isEnumCode (members : List (String × Int)) (c : Int) : Bool :=
  members.any (fun p => p.2 == c)

/-- Calling an `IntEnum` class on an integer, e.g. `Color(c)`: the member
with that value if the code is defined, otherwise `ValueError`
(`c is not a valid ...`).  As an `IntEnum` member compares equal to its
integer value, the member is represented by its code. -/
def enumOfCode (members : List (String × Int)) (c : Int) : Except ErrKind Int :=
  if isEnumCode members c then .ok c else .error .undefinedEnumCode

/-- Python's value-to-member map: the canonical member name for a code.
When a duplicate value is defined, the first definition wins and later
names become aliases, so `find?` over the definition order is exact. -/
def enumMemberName (members : List (String × Int)) (c : Int) : Option String :=
  (members.find? (fun p => p.2 == c)).map Prod.fst

/-- Lookup by name (attribute access / `Enum['NAME']`): works for every
defined name, aliases included. -/
def enumCodeOfName (members : List (String × Int)) (n : String) : Option Int :=
  (members.find? (fun p => p.1 == n)).map Prod.snd

def Control.ofCode : Int → Except ErrKind Int := enumOfCode Control.members
def Color.ofCode : Int → Except ErrKind Int := enumOfCode Color.members
def Hat.ofCode : Int → Except ErrKind Int := enumOfCode Hat.members
def Skin.ofCode : Int → Except ErrKind Int := enumOfCode Skin.members
def Pet.ofCode : Int → Except ErrKind Int := enumOfCode Pet.members
def Language.ofCode : Int → Except ErrKind Int := enumOfCode Language.members

def Control.MOUSE_AND_KEYBOARD : Int := 1
def Color.GREEN : Int := 2
def Color.LIME : Int := 11
def Hat.CROWN : Int := 30
def Hat.MINIME : Int := 90
def Hat.NINJA_MASK : Int := 90
def Skin.BLUEY : Int := 3
def Pet.NONE : Int := 0
def Language.ENGLISH : Int := 0

/-- `U8.__init__`'s range check: the value must lie in `[0, 255]`, else
`ValueError('UInt7 must be between 0 and 255.')`. -/
def U8.mk (n : Int) : Except ErrKind Int :=
  if 0 ≤ n ∧ n ≤ 255 then .ok n else .error .outOfRange

/-- `U8(token)` on a string: `int` parses the text (construction of the
`int` subclass), then the range check of `U8.__init__` runs. -/
def U8.ofString (s : String) : Except ErrKind Int :=
  (pyInt s).bind U8.mk

/-- The 22-field `@dataclass PlayerPrefs`.  Enum members and `U8` compare
by (and print as) their integer value, so those fields are carried as
`Int`. -/
structure PlayerPrefs where
  name : String
  control : Int
  color : Int
  unknown3 : Int
  unknown4 : Bool
  unknown5 : Bool
  unknown6 : Bool
  unknown7 : Int
  unknown8 : Bool
  unknown9 : Bool
  hat : Int
  sfx : Int
  music : Int
  unknown13 : Int
  unknown14 : Int
  skin : Int
  pet : Int
  censor_chat : Bool
  language : Int
  vsync : Bool
  unknown20 : Int
  unknown21 : Int
deriving DecidableEq, Repr

/-- The `@dataclass`-generated `__init__` of `PlayerPrefs`: it assigns
each field and performs no validation or conversion (dataclasses do not
enforce type annotations at runtime), hence it never raises. -/
def dataclassInit (name : String) (control color unknown3 : Int)
    (unknown4 unknown5 unknown6 : Bool) (unknown7 : Int)
    (unknown8 unknown9 : Bool) (hat sfx music unknown13 unknown14 skin pet : Int)
    (censor_chat : Bool) (language : Int) (vsync : Bool)
    (unknown20 unknown21 : Int) : Except ErrKind PlayerPrefs :=
  .ok ⟨name, control, color, unknown3, unknown4, unknown5, unknown6,
       unknown7, unknown8, unknown9, hat, sfx, music, unknown13, unknown14,
       skin, pet, censor_chat, language, vsync, unknown20, unknown21⟩

/-- The conversions of the 22 argument expressions in the `cls(...)` call
of `PlayerPrefs.from_list`, in Python's left-to-right evaluation order:
the first failing conversion determines the raised error. -/
def convertFields (a0 a1 a2 a3 a4 a5 a6 a7 a8 a9 a10 a11 a12 a13 a14 a15
    a16 a17 a18 a19 a20 a21 : String) : Except ErrKind PlayerPrefs :=
  (pyInt a1).bind fun n1 =>
  (Control.ofCode n1).bind fun control =>
  (pyInt a2).bind fun n2 =>
  (Color.ofCode n2).bind fun color =>
  (pyInt a3).bind fun unknown3 =>
  (BOOL a4).bind fun unknown4 =>
  (BOOL a5).bind fun unknown5 =>
  (BOOL a6).bind fun unknown6 =>
  (pyInt a7).bind fun unknown7 =>
  (BOOL a8).bind fun unknown8 =>
  (BOOL a9).bind fun unknown9 =>
  (pyInt a10).bind fun n10 =>
  (Hat.ofCode n10).bind fun hat =>
  (U8.ofString a11).bind fun sfx =>
  (U8.ofString a12).bind fun music =>
  (pyInt a13).bind fun unknown13 =>
  (pyInt a14).bind fun unknown14 =>
  (pyInt a15).bind fun n15 =>
  (Skin.ofCode n15).bind fun skin =>
  (pyInt a16).bind fun n16 =>
  (Pet.ofCode n16).bind fun pet =>
  (BOOL a17).bind fun censor_chat =>
  (pyInt a18).bind fun n18 =>
  (Language.ofCode n18).bind fun language =>
  (BOOL a19).bind fun vsync =>
  (pyInt a20).bind fun unknown20 =>
  (pyInt a21).bind fun unknown21 =>
  Except.ok ⟨a0, control, color, unknown3, unknown4, unknown5, unknown6,
             unknown7, unknown8, unknown9, hat, sfx, music, unknown13,
             unknown14, skin, pet, censor_chat, language, vsync,
             unknown20, unknown21⟩

/-- `PlayerPrefs.from_list`: reject any list without exactly 22 fields,
then convert each positional field. -/
def PlayerPrefs.from_list (lst : List String) : Except ErrKind PlayerPrefs :=
  if h : lst.length = 22 then
    convertFields (lst.get ⟨0, by omega⟩) (lst.get ⟨1, by omega⟩)
      (lst.get ⟨2, by omega⟩) (lst.get ⟨3, by omega⟩) (lst.get ⟨4, by omega⟩)
      (lst.get ⟨5, by omega⟩) (lst.get ⟨6, by omega⟩) (lst.get ⟨7, by omega⟩)
      (lst.get ⟨8, by omega⟩) (lst.get ⟨9, by omega⟩) (lst.get ⟨10, by omega⟩)
      (lst.get ⟨11, by omega⟩) (lst.get ⟨12, by omega⟩) (lst.get ⟨13, by omega⟩)
      (lst.get ⟨14, by omega⟩) (lst.get ⟨15, by omega⟩) (lst.get ⟨16, by omega⟩)
      (lst.get ⟨17, by omega⟩) (lst.get ⟨18, by omega⟩) (lst.get ⟨19, by omega⟩)
      (lst.get ⟨20, by omega⟩) (lst.get ⟨21, by omega⟩)
  else .error .wrongFieldCount

/-- `PlayerPrefs.from_string`: split on `,` and delegate to `from_list`. -/
def PlayerPrefs.from_string (s : String) : Except ErrKind PlayerPrefs :=
  PlayerPrefs.from_list ((splitComma s.data).map String.mk)

/-- The 22 tokens of `__str__`'s `map(str, self)`, in the fixed order of
`__iter__`: the name verbatim, enums and numbers as their decimal value,
booleans as `True`/`False`. -/
def fieldTokens (r : PlayerPrefs) : List String :=
  [r.name, pyStrInt r.control, pyStrInt r.color, pyStrInt r.unknown3,
   pyStrBool r.unknown4, pyStrBool r.unknown5, pyStrBool r.unknown6,
   pyStrInt r.unknown7, pyStrBool r.unknown8, pyStrBool r.unknown9,
   pyStrInt r.hat, pyStrInt r.sfx, pyStrInt r.music, pyStrInt r.unknown13,
   pyStrInt r.unknown14, pyStrInt r.skin, pyStrInt r.pet,
   pyStrBool r.censor_chat, pyStrInt r.language, pyStrBool r.vsync,
   pyStrInt r.unknown20, pyStrInt r.unknown21]

/-- `PlayerPrefs.__str__`: `','.join(map(str, self))`. -/
def PlayerPrefs.str (r : PlayerPrefs) : String :=
  ⟨joinComma ((fieldTokens r).map String.data)⟩

/-- A record whose fields all lie in their declared domains: every enum
field holds a defined code and `sfx`/`music` lie in `[0, 255]`. -/
def PlayerPrefs.Valid (r : PlayerPrefs) : Prop :=
  isEnumCode Control.members r.control ∧ isEnumCode Color.members r.color ∧
  isEnumCode Hat.members r.hat ∧ isEnumCode Skin.members r.skin ∧
  isEnumCode Pet.members r.pet ∧ isEnumCode Language.members r.language ∧
  0 ≤ r.sfx ∧ r.sfx ≤ 255 ∧ 0 ≤ r.music ∧ r.music ≤ 255

instance (r : PlayerPrefs) : Decidable r.Valid := by
  unfold PlayerPrefs.Valid
  infer_instance

deriving instance DecidableEq for Except

/-- The known-good sample line of the file format. -/
def bobStr : String :=
  "Bob,1,2,0,True,False,True,0,False,True,30,100,100,0,0,3,0,True,0,False,0,0"

/-- The record the sample line denotes. -/
def bobRecord : PlayerPrefs :=
  ⟨"Bob", 1, 2, 0, true, false, true, 0, false, true, 30, 100, 100,
   0, 0, 3, 0, true, 0, false, 0, 0⟩

/-! ### Basic lemmas on `Except`, characters and digit strings -/

@[simp]
lemma okBind {ε α β : Type} (a : α) (f : α → Except ε β) :
    (Except.ok a : Except ε α).bind f = f a := rfl

@[simp]
lemma errorBind {ε α β : Type} (e : ε) (f : α → Except ε β) :
    (Except.error e : Except ε α).bind f = (.error e : Except ε β) := rfl

@[simp]
lemma okMap {ε α β : Type} (a : α) (f : α → β) :
    (Except.ok a : Except ε α).map f = (.ok (f a) : Except ε β) := rfl

lemma bindOk {ε α β : Type} {x : Except ε α} {f : α → Except ε β} {b : β}
    (h : x.bind f = .ok b) : ∃ a, x = .ok a ∧ f a = .ok b := by
  cases x with
  | error e => simp at h
  | ok a => exact ⟨a, rfl, by simpa using h⟩

lemma digit_ne_comma {c : Char} (h : isAsciiDigit c = true) : c ≠ ',' := by
  rintro rfl; exact absurd h (by decide)

lemma digit_ne_minus {c : Char} (h : isAsciiDigit c = true) : c ≠ '-' := by
  rintro rfl; exact absurd h (by decide)

lemma digit_ne_plus {c : Char} (h : isAsciiDigit c = true) : c ≠ '+' := by
  rintro rfl; exact absurd h (by decide)

lemma digit_not_space {c : Char} (h : isAsciiDigit c = true) :
    isPySpace c = false := by
  cases hs : isPySpace c with
  | false => rfl
  | true =>
      exfalso
      have hc := by simpa [isPySpace] using hs
      rcases hc with ((((rfl | rfl) | rfl) | rfl) | rfl) | rfl <;>
        exact absurd h (by decide)

lemma digitChar_spec {n : Nat} (h : n < 10) :
    isAsciiDigit (digitChar n) = true ∧ digitVal (digitChar n) = n := by
  interval_cases n <;> exact ⟨by decide, by decide⟩

lemma digitsToNat_append (xs : List Char) (c : Char) :
    digitsToNat (xs ++ [c]) = 10 * digitsToNat xs + digitVal c := by
  unfold digitsToNat
  rw [List.foldl_append]
  rfl

lemma natDigitsAux_spec :
    ∀ fuel n, n ≤ fuel →
      digitsToNat (natDigitsAux fuel n) = n ∧
      (∀ c ∈ natDigitsAux fuel n, isAsciiDigit c = true) ∧
      natDigitsAux fuel n ≠ [] := by
  intro fuel
  induction fuel with
  | zero =>
      intro n hn
      interval_cases n
      exact ⟨by decide, by decide, by decide⟩
  | succ fuel ih =>
      intro n hn
      by_cases h10 : n < 10
      · obtain ⟨hd, hv⟩ := digitChar_spec h10
        refine ⟨?_, ?_, ?_⟩
        · simp only [natDigitsAux, if_pos h10, digitsToNat, List.foldl_cons,
            List.foldl_nil, hv]
          omega
        · simp [natDigitsAux, if_pos h10, hd]
        · simp [natDigitsAux, if_pos h10]
      · have hrec : n / 10 ≤ fuel := by omega
        obtain ⟨hD, hall, hne⟩ := ih (n / 10) hrec
        obtain ⟨hd, hv⟩ := digitChar_spec (Nat.mod_lt n (by omega) : n % 10 < 10)
        refine ⟨?_, ?_, ?_⟩
        · simp only [natDigitsAux, if_neg h10]
          rw [digitsToNat_append, hD, hv]
          omega
        · simp only [natDigitsAux, if_neg h10]
          intro c hc
          rcases List.mem_append.mp hc with hc | hc
          · exact hall c hc
          · simpa using List.mem_singleton.mp hc ▸ hd
        · simp [natDigitsAux, if_neg h10]

lemma parseDigits_natDigitsAux {fuel n : Nat} (h : n ≤ fuel) :
    parseDigits (natDigitsAux fuel n) = .ok (n : Int) := by
  obtain ⟨hD, hall, hne⟩ := natDigitsAux_spec fuel n h
  unfold parseDigits
  rw [if_neg (by simpa [List.isEmpty_iff] using hne),
      if_pos (List.all_eq_true.mpr (by simpa using hall)), hD]

lemma dropWhile_eq_self_of {p : Char → Bool} (l : List Char)
    (h : ∀ c ∈ l, p c = false) : l.dropWhile p = l := by
  cases l with
  | nil => rfl
  | cons a l => simp [List.dropWhile, h a (by simp)]

lemma pyTrim_eq_self {l : List Char} (h : ∀ c ∈ l, isPySpace c = false) :
    pyTrim l = l := by
  unfold pyTrim
  rw [dropWhile_eq_self_of l h,
      dropWhile_eq_self_of l.reverse
        (fun c hc => h c (List.mem_reverse.mp hc)),
      List.reverse_reverse]

/-! ### `str(int)` / `int(str)` round trip -/

lemma pyInt_pyStrInt (i : Int) : pyInt (pyStrInt i) = .ok i := by
  by_cases hneg : i < 0
  · have hic : intChars i = '-' :: natDigitsAux i.natAbs i.natAbs := by
      simp [intChars, hneg]
    obtain ⟨hD, hall, hne⟩ := natDigitsAux_spec i.natAbs i.natAbs le_rfl
    have htrim : pyTrim (intChars i) = '-' :: natDigitsAux i.natAbs i.natAbs := by
      rw [hic]
      refine pyTrim_eq_self ?_
      intro c hc
      rcases List.mem_cons.mp hc with rfl | hc
      · decide
      · exact digit_not_space (hall c hc)
    have hdata : (pyStrInt i).data = intChars i := rfl
    have hval : -((i.natAbs : Nat) : Int) = i := by omega
    simp only [pyInt, hdata, htrim, if_pos, parseDigits_natDigitsAux le_rfl,
      okMap, hval]
  · have hic : intChars i = natDigitsAux i.toNat i.toNat := by
      simp [intChars, hneg]
    obtain ⟨hD, hall, hne⟩ := natDigitsAux_spec i.toNat i.toNat le_rfl
    obtain ⟨c, rest, hl⟩ : ∃ c rest, natDigitsAux i.toNat i.toNat = c :: rest := by
      cases hx : natDigitsAux i.toNat i.toNat with
      | nil => exact absurd hx hne
      | cons c rest => exact ⟨c, rest, rfl⟩
    have hcd : isAsciiDigit c = true := hall c (by rw [hl]; simp)
    have htrim : pyTrim (intChars i) = c :: rest := by
      rw [hic, hl]
      refine pyTrim_eq_self ?_
      intro x hx
      exact digit_not_space (hall x (by rw [hl]; exact hx))
    have hdata : (pyStrInt i).data = intChars i := rfl
    have hval : ((i.toNat : Nat) : Int) = i := by omega
    simp only [pyInt, hdata, htrim, if_neg (digit_ne_minus hcd),
      if_neg (digit_ne_plus hcd)]
    rw [← hl, parseDigits_natDigitsAux le_rfl, hval]

lemma intChars_no_comma (i : Int) : ∀ c ∈ intChars i, c ≠ ',' := by
  intro c hc
  by_cases hneg : i < 0
  · rw [intChars, if_pos hneg] at hc
    rcases List.mem_cons.mp hc with rfl | hc
    · decide
    · exact digit_ne_comma
        ((natDigitsAux_spec i.natAbs i.natAbs le_rfl).2.1 c hc)
  · rw [intChars, if_neg hneg] at hc
    exact digit_ne_comma
      ((natDigitsAux_spec i.toNat i.toNat le_rfl).2.1 c hc)

lemma BOOL_pyStrBool (b : Bool) : BOOL (pyStrBool b) = .ok b := by
  cases b <;> rfl

lemma pyStrBool_no_comma (b : Bool) : ∀ c ∈ (pyStrBool b).data, c ≠ ',' := by
  cases b <;> decide

/-! ### `split(',')` inverts `','.join` on comma-free tokens -/

lemma splitComma_ne_nil (l : List Char) : splitComma l ≠ [] := by
  induction l with
  | nil => simp [splitComma]
  | cons c rest ih =>
      simp only [splitComma]
      split
      · simp
      · split <;> simp

lemma splitComma_append {t rest : List Char} (h : ∀ c ∈ t, c ≠ ',')
    {hd : List Char} {tl : List (List Char)}
    (hrest : splitComma rest = hd :: tl) :
    splitComma (t ++ rest) = (t ++ hd) :: tl := by
  induction t with
  | nil => simpa using hrest
  | cons c t ih =>
      have hc : c ≠ ',' := h c (by simp)
      have ht : ∀ x ∈ t, x ≠ ',' := fun x hx => h x (by simp [hx])
      simp only [List.cons_append, splitComma, List.append_eq, ih ht,
        if_neg hc]

lemma splitComma_joinComma :
    ∀ ts : List (List Char), ts ≠ [] →
      (∀ t ∈ ts, ∀ c ∈ t, c ≠ ',') →
      splitComma (joinComma ts) = ts := by
  intro ts
  induction ts with
  | nil => intro h; exact absurd rfl h
  | cons t ts ih =>
      intro _ h
      cases ts with
      | nil =>
          have := @splitComma_append t [] (h t (by simp)) [] [] rfl
          simpa [joinComma] using this
      | cons t2 ts2 =>
          have ih2 : splitComma (joinComma (t2 :: ts2)) = t2 :: ts2 :=
            ih (by simp) (fun x hx => h x (by simp [List.mem_cons.mp hx]))
          have hrest : splitComma (',' :: joinComma (t2 :: ts2)) =
              [] :: t2 :: ts2 := by
            simp [splitComma, ih2]
          have := splitComma_append (h t (by simp)) hrest
          simpa [joinComma] using this

/-! ### Enumeration, `U8` and field-conversion lemmas -/

lemma mk_data (s : String) : String.mk s.data = s := rfl

lemma enumOfCode_ok_of {m : List (String × Int)} {c : Int}
    (h : isEnumCode m c = true) : enumOfCode m c = .ok c := by
  simp [enumOfCode, h]

lemma enumOfCode_ok_inv {m : List (String × Int)} {c x : Int}
    (h : enumOfCode m c = .ok x) : x = c ∧ isEnumCode m c = true := by
  unfold enumOfCode at h
  split at h
  · exact ⟨(Except.ok.injEq _ _).mp h |>.symm, by assumption⟩
  · exact absurd h (by simp)

lemma U8.mk_ok {n : Int} (h1 : 0 ≤ n) (h2 : n ≤ 255) : U8.mk n = .ok n := by
  simp [U8.mk, h1, h2]

lemma U8.mk_ok_inv {n x : Int} (h : U8.mk n = .ok x) :
    x = n ∧ 0 ≤ n ∧ n ≤ 255 := by
  unfold U8.mk at h
  split at h
  · exact ⟨(Except.ok.injEq _ _).mp h |>.symm, by assumption⟩
  · exact absurd h (by simp)

lemma U8.ofString_pyStrInt {n : Int} (h1 : 0 ≤ n) (h2 : n ≤ 255) :
    U8.ofString (pyStrInt n) = .ok n := by
  rw [U8.ofString, pyInt_pyStrInt, okBind, U8.mk_ok h1 h2]

lemma BOOL_ok_inv {s : String} {b : Bool} (h : BOOL s = .ok b) :
    s = "True" ∨ s = "False" := by
  unfold BOOL at h
  split at h
  · exact Or.inl rfl
  · exact Or.inr rfl
  · exact absurd h (by simp)

lemma BOOL_of_bad {s : String} (h1 : s ≠ "True") (h2 : s ≠ "False") :
    BOOL s = .error .boolKeyLookup := by
  unfold BOOL
  split
  · exact absurd rfl h1
  · exact absurd rfl h2
  · rfl

/-- Inversion: a successful field conversion pins down what each token
parsed to, and in particular that every enum field of the result is a
defined code and `sfx`/`music` are in range. -/
lemma convertFields_ok {a0 a1 a2 a3 a4 a5 a6 a7 a8 a9 a10 a11 a12 a13 a14
    a15 a16 a17 a18 a19 a20 a21 : String} {r : PlayerPrefs}
    (h : convertFields a0 a1 a2 a3 a4 a5 a6 a7 a8 a9 a10 a11 a12 a13 a14
      a15 a16 a17 a18 a19 a20 a21 = .ok r) :
    r.name = a0 ∧
    pyInt a1 = .ok r.control ∧ isEnumCode Control.members r.control = true ∧
    pyInt a2 = .ok r.color ∧ isEnumCode Color.members r.color = true ∧
    pyInt a3 = .ok r.unknown3 ∧
    BOOL a4 = .ok r.unknown4 ∧
    BOOL a5 = .ok r.unknown5 ∧
    BOOL a6 = .ok r.unknown6 ∧
    pyInt a7 = .ok r.unknown7 ∧
    BOOL a8 = .ok r.unknown8 ∧
    BOOL a9 = .ok r.unknown9 ∧
    pyInt a10 = .ok r.hat ∧ isEnumCode Hat.members r.hat = true ∧
    U8.ofString a11 = .ok r.sfx ∧ 0 ≤ r.sfx ∧ r.sfx ≤ 255 ∧
    U8.ofString a12 = .ok r.music ∧ 0 ≤ r.music ∧ r.music ≤ 255 ∧
    pyInt a13 = .ok r.unknown13 ∧
    pyInt a14 = .ok r.unknown14 ∧
    pyInt a15 = .ok r.skin ∧ isEnumCode Skin.members r.skin = true ∧
    pyInt a16 = .ok r.pet ∧ isEnumCode Pet.members r.pet = true ∧
    BOOL a17 = .ok r.censor_chat ∧
    pyInt a18 = .ok r.language ∧
    isEnumCode Language.members r.language = true ∧
    BOOL a19 = .ok r.vsync ∧
    pyInt a20 = .ok r.unknown20 ∧
    pyInt a21 = .ok r.unknown21 := by
  unfold convertFields at h
  obtain ⟨n1, hn1, g1⟩ := bindOk h
  obtain ⟨control, hc1, g2⟩ := bindOk g1
  obtain ⟨n2, hn2, g3⟩ := bindOk g2
  obtain ⟨color, hc2, g4⟩ := bindOk g3
  obtain ⟨u3, hu3, g5⟩ := bindOk g4
  obtain ⟨b4, hb4, g6⟩ := bindOk g5
  obtain ⟨b5, hb5, g7⟩ := bindOk g6
  obtain ⟨b6, hb6, g8⟩ := bindOk g7
  obtain ⟨u7, hu7, g9⟩ := bindOk g8
  obtain ⟨b8, hb8, g10⟩ := bindOk g9
  obtain ⟨b9, hb9, g11⟩ := bindOk g10
  obtain ⟨n10, hn10, g12⟩ := bindOk g11
  obtain ⟨hat, hc10, g13⟩ := bindOk g12
  obtain ⟨sfx, hu8s, g14⟩ := bindOk g13
  obtain ⟨music, hu8m, g15⟩ := bindOk g14
  obtain ⟨u13, hu13, g16⟩ := bindOk g15
  obtain ⟨u14, hu14, g17⟩ := bindOk g16
  obtain ⟨n15, hn15, g18⟩ := bindOk g17
  obtain ⟨skin, hc15, g19⟩ := bindOk g18
  obtain ⟨n16, hn16, g20⟩ := bindOk g19
  obtain ⟨pet, hc16, g21⟩ := bindOk g20
  obtain ⟨b17, hb17, g22⟩ := bindOk g21
  obtain ⟨n18, hn18, g23⟩ := bindOk g22
  obtain ⟨language, hc18, g24⟩ := bindOk g23
  obtain ⟨b19, hb19, g25⟩ := bindOk g24
  obtain ⟨u20, hu20, g26⟩ := bindOk g25
  obtain ⟨u21, hu21, g27⟩ := bindOk g26
  obtain ⟨rfl, hv1⟩ := enumOfCode_ok_inv hc1
  obtain ⟨rfl, hv2⟩ := enumOfCode_ok_inv hc2
  obtain ⟨rfl, hv10⟩ := enumOfCode_ok_inv hc10
  obtain ⟨rfl, hv15⟩ := enumOfCode_ok_inv hc15
  obtain ⟨rfl, hv16⟩ := enumOfCode_ok_inv hc16
  obtain ⟨rfl, hv18⟩ := enumOfCode_ok_inv hc18
  obtain ⟨msfx, hmsfx, hmks⟩ := bindOk hu8s
  obtain ⟨rfl, hsb1, hsb2⟩ := U8.mk_ok_inv hmks
  obtain ⟨mmus, hmmus, hmkm⟩ := bindOk hu8m
  obtain ⟨rfl, hmb1, hmb2⟩ := U8.mk_ok_inv hmkm
  injection g27 with hr
  subst hr
  exact ⟨rfl, hn1, hv1, hn2, hv2, hu3, hb4, hb5, hb6, hu7, hb8, hb9,
    hn10, hv10, hu8s, hsb1, hsb2, hu8m, hmb1, hmb2, hu13, hu14,
    hn15, hv15, hn16, hv16, hb17, hn18, hv18, hb19, hu20, hu21⟩

/-- A successful `from_list` implies the list had exactly 22 fields. -/
lemma from_list_ok_len {lst : List String} {r : PlayerPrefs}
    (h : PlayerPrefs.from_list lst = .ok r) : lst.length = 22 := by
  unfold PlayerPrefs.from_list at h
  by_cases hlen : lst.length = 22
  · exact hlen
  · rw [dif_neg hlen] at h
    exact absurd h (by simp)

/-- A successful `from_list` is a successful conversion of the 22
positional tokens. -/
lemma from_list_ok_conv {lst : List String} {r : PlayerPrefs}
    (h : PlayerPrefs.from_list lst = .ok r) (hlen : lst.length = 22) :
    convertFields (lst.get ⟨0, by omega⟩) (lst.get ⟨1, by omega⟩)
      (lst.get ⟨2, by omega⟩) (lst.get ⟨3, by omega⟩) (lst.get ⟨4, by omega⟩)
      (lst.get ⟨5, by omega⟩) (lst.get ⟨6, by omega⟩) (lst.get ⟨7, by omega⟩)
      (lst.get ⟨8, by omega⟩) (lst.get ⟨9, by omega⟩) (lst.get ⟨10, by omega⟩)
      (lst.get ⟨11, by omega⟩) (lst.get ⟨12, by omega⟩)
      (lst.get ⟨13, by omega⟩) (lst.get ⟨14, by omega⟩)
      (lst.get ⟨15, by omega⟩) (lst.get ⟨16, by omega⟩)
      (lst.get ⟨17, by omega⟩) (lst.get ⟨18, by omega⟩)
      (lst.get ⟨19, by omega⟩) (lst.get ⟨20, by omega⟩)
      (lst.get ⟨21, by omega⟩) = .ok r := by
  unfold PlayerPrefs.from_list at h
  rwa [dif_pos hlen] at h

/-- Positional lookup by `getElem?` agrees with `get` on a 22-field
list. -/
lemma token_of_get? {lst : List String} {i : Nat} {t : String}
    (hlen : lst.length = 22) (hi : i < 22) (ht : lst[i]? = some t) :
    lst.get ⟨i, by omega⟩ = t := by
  have hlt : i < lst.length := by omega
  rw [List.getElem?_eq_getElem hlt] at ht
  injection ht

/-! ### Claim theorems -/

/-- C1: Round-trip — for every Record whose fields all lie in their
declared domains (enum fields hold defined codes, `sfx`/`music` in
`[0, 255]`) and whose name contains no comma, decoding the string produced
by encoding the record yields the record back, field for field. -/
theorem decode_encode_roundtrip (r : PlayerPrefs) (hv : r.Valid)
    (hn : ∀ c ∈ r.name.data, c ≠ ',') :
    PlayerPrefs.from_string r.str = .ok r := by
  obtain ⟨h1, h2, h3, h4, h5, h6, hs1, hs2, hm1, hm2⟩ := hv
  have hts : splitComma ((PlayerPrefs.str r).data) =
      (fieldTokens r).map String.data := by
    have hd : (PlayerPrefs.str r).data =
        joinComma ((fieldTokens r).map String.data) := rfl
    rw [hd]
    apply splitComma_joinComma
    · simp [fieldTokens]
    · intro t ht c hc
      simp only [fieldTokens, List.map_cons, List.map_nil,
        List.mem_cons, List.not_mem_nil, or_false] at ht
      rcases ht with rfl|rfl|rfl|rfl|rfl|rfl|rfl|rfl|rfl|rfl|rfl|rfl|rfl|rfl|rfl|rfl|rfl|rfl|rfl|rfl|rfl|rfl
      all_goals first
        | exact hn c hc
        | exact intChars_no_comma _ c hc
        | exact pyStrBool_no_comma _ c hc
  have hfl : PlayerPrefs.from_string r.str =
      PlayerPrefs.from_list (fieldTokens r) := by
    unfold PlayerPrefs.from_string
    rw [hts, List.map_map]
    simp [Function.comp_def, mk_data]
  rw [hfl]
  have hred : PlayerPrefs.from_list (fieldTokens r) =
      convertFields r.name (pyStrInt r.control) (pyStrInt r.color)
        (pyStrInt r.unknown3) (pyStrBool r.unknown4) (pyStrBool r.unknown5)
        (pyStrBool r.unknown6) (pyStrInt r.unknown7) (pyStrBool r.unknown8)
        (pyStrBool r.unknown9) (pyStrInt r.hat) (pyStrInt r.sfx)
        (pyStrInt r.music) (pyStrInt r.unknown13) (pyStrInt r.unknown14)
        (pyStrInt r.skin) (pyStrInt r.pet) (pyStrBool r.censor_chat)
        (pyStrInt r.language) (pyStrBool r.vsync) (pyStrInt r.unknown20)
        (pyStrInt r.unknown21) := rfl
  rw [hred]
  unfold convertFields
  simp only [pyInt_pyStrInt, okBind, BOOL_pyStrBool,
    Control.ofCode, Color.ofCode, Hat.ofCode, Skin.ofCode, Pet.ofCode,
    Language.ofCode, enumOfCode_ok_of h1, enumOfCode_ok_of h2,
    enumOfCode_ok_of h3, enumOfCode_ok_of h4, enumOfCode_ok_of h5,
    enumOfCode_ok_of h6, U8.ofString_pyStrInt hs1 hs2,
    U8.ofString_pyStrInt hm1 hm2]

/-- C1 witness: the round trip instantiated at the known-good sample
record. -/
theorem decode_encode_roundtrip_witness :
    bobRecord.Valid ∧ (∀ c ∈ bobRecord.name.data, c ≠ ',') ∧
      PlayerPrefs.from_string bobRecord.str = .ok bobRecord :=
  ⟨by decide, by decide,
   decode_encode_roundtrip bobRecord (by decide) (by decide)⟩

/-- C4: Field-count guard — any input whose comma-split yields other than
22 parts decodes to the wrong-field-count (schema) error, regardless of
the parts' content; no per-field conversion error is raised instead. -/
theorem field_count_guard (s : String)
    (h : (splitComma s.data).length ≠ 22) :
    PlayerPrefs.from_string s = .error .wrongFieldCount := by
  unfold PlayerPrefs.from_string PlayerPrefs.from_list
  rw [dif_neg (by simpa using h)]

/-- C4 witness: a 21-field line fails with the schema error. -/
theorem field_count_guard_witness :
    (splitComma ("Bob,1,2,0,True,False,True,0,False,True,30,100,100,0,0,3,0,True,0,False,0" : String).data).length ≠ 22 ∧
      PlayerPrefs.from_string
        "Bob,1,2,0,True,False,True,0,False,True,30,100,100,0,0,3,0,True,0,False,0" =
        .error .wrongFieldCount :=
  ⟨by decide, field_count_guard _ (by decide)⟩

/-- C10: decoding the empty string fails with the wrong-field-count
(schema) error, because splitting the empty string on `,` yields exactly
one — empty — field, not zero fields. -/
theorem empty_string_schema_error :
    splitComma ("" : String).data = [[]] ∧
      (splitComma ("" : String).data).length = 1 ∧
      PlayerPrefs.from_string "" = .error .wrongFieldCount := by
  refine ⟨rfl, rfl, by decide⟩

/-- The sample line with the `sfx` field (position 11) replaced by 256. -/
def sfx256Str : String :=
  "Bob,1,2,0,True,False,True,0,False,True,30,256,100,0,0,3,0,True,0,False,0,0"

/-- The sample line with the `sfx` field replaced by 255. -/
def sfx255Str : String :=
  "Bob,1,2,0,True,False,True,0,False,True,30,255,100,0,0,3,0,True,0,False,0,0"

/-- The sample line with the `sfx` field replaced by 0. -/
def sfx0Str : String :=
  "Bob,1,2,0,True,False,True,0,False,True,30,0,100,0,0,3,0,True,0,False,0,0"

/-- The sample line with the `music` field (position 12) replaced by 256. -/
def music256Str : String :=
  "Bob,1,2,0,True,False,True,0,False,True,30,100,256,0,0,3,0,True,0,False,0,0"

/-- The sample line with the `music` field replaced by 255. -/
def music255Str : String :=
  "Bob,1,2,0,True,False,True,0,False,True,30,100,255,0,0,3,0,True,0,False,0,0"

/-- C6: Bounded range — decoding with `sfx` token `256` fails with the
out-of-range error, while `255` and `0` succeed yielding `sfx = 255` and
`sfx = 0`; the same bound applies to `music`. -/
theorem bounded_range_sfx_music :
    PlayerPrefs.from_string sfx256Str = .error .outOfRange ∧
    (PlayerPrefs.from_string sfx255Str).map PlayerPrefs.sfx = .ok 255 ∧
    (PlayerPrefs.from_string sfx0Str).map PlayerPrefs.sfx = .ok 0 ∧
    PlayerPrefs.from_string music256Str = .error .outOfRange ∧
    (PlayerPrefs.from_string music255Str).map PlayerPrefs.music = .ok 255 := by
  refine ⟨by decide, by decide, by decide, by decide, by decide⟩

/-- C7: Known-good sample — decoding the exact sample line succeeds,
yields the expected field values, and re-encoding the decoded record
reproduces the identical original string. -/
theorem known_good_sample :
    PlayerPrefs.from_string bobStr = .ok bobRecord ∧
    bobRecord.name = "Bob" ∧
    bobRecord.control = Control.MOUSE_AND_KEYBOARD ∧
    bobRecord.color = Color.GREEN ∧
    bobRecord.hat = Hat.CROWN ∧
    bobRecord.sfx = 100 ∧ bobRecord.music = 100 ∧
    bobRecord.skin = Skin.BLUEY ∧ bobRecord.pet = Pet.NONE ∧
    bobRecord.censor_chat = true ∧
    bobRecord.language = Language.ENGLISH ∧
    bobRecord.vsync = false ∧
    bobRecord.str = bobStr := by
  refine ⟨by decide, rfl, rfl, rfl, rfl, rfl, rfl, rfl, rfl, rfl, rfl, rfl,
    by decide⟩

/-- The sample line with the `color` field (position 2) replaced by 12,
one past the last defined code. -/
def color12Str : String :=
  "Bob,1,12,0,True,False,True,0,False,True,30,100,100,0,0,3,0,True,0,False,0,0"

/-- The sample line with the `color` field replaced by 11 (`LIME`). -/
def color11Str : String :=
  "Bob,1,11,0,True,False,True,0,False,True,30,100,100,0,0,3,0,True,0,False,0,0"

/-- C5: Enum closure — decoding the sample with color token `12` fails
with the undefined-enum-code error while `11` succeeds as `LIME`, and in
general every successfully decoded record holds only defined enum codes
(so an undefined parsed integer in any enum field makes decode fail). -/
theorem enum_closure_color (s : String) (r : PlayerPrefs)
    (h : PlayerPrefs.from_string s = .ok r) :
    (isEnumCode Control.members r.control = true ∧
     isEnumCode Color.members r.color = true ∧
     isEnumCode Hat.members r.hat = true ∧
     isEnumCode Skin.members r.skin = true ∧
     isEnumCode Pet.members r.pet = true ∧
     isEnumCode Language.members r.language = true) ∧
    PlayerPrefs.from_string color12Str = .error .undefinedEnumCode ∧
    (PlayerPrefs.from_string color11Str).map PlayerPrefs.color =
      .ok Color.LIME := by
  refine ⟨?_, by decide, by decide⟩
  have hlen := from_list_ok_len h
  have hfacts := convertFields_ok (from_list_ok_conv h hlen)
  obtain ⟨-, -, hv1, -, hv2, -, -, -, -, -, -, -, -, hv10, -, -, -, -, -,
    -, -, -, -, hv15, -, hv16, -, -, hv18, -, -, -⟩ := hfacts
  exact ⟨hv1, hv2, hv10, hv15, hv16, hv18⟩

/-- C5 witness: the enum-closure consequence instantiated at the
known-good sample. -/
theorem enum_closure_color_witness :
    PlayerPrefs.from_string bobStr = .ok bobRecord ∧
      isEnumCode Color.members bobRecord.color = true :=
  ⟨by decide, (enum_closure_color bobStr bobRecord (by decide)).1.2.1⟩

/-- The sample line with the `hat` field (position 10) replaced by the
duplicate code 90. -/
def hat90Str : String :=
  "Bob,1,2,0,True,False,True,0,False,True,90,100,100,0,0,3,0,True,0,False,0,0"

/-- C8: Deterministic resolution of the duplicate hat code — decoding is
a pure function (two calls on the same input are equal), code 90 resolves
to exactly one symbolic name, `MINIME` (Python's first-definition-wins
value map), and any successful decode of an input whose hat token is `90`
has hat code 90 resolving to that single name. -/
theorem hat90_deterministic (s : String)
    (ht : ((splitComma s.data).map String.mk)[10]? = some "90") :
    PlayerPrefs.from_string s = PlayerPrefs.from_string s ∧
    enumMemberName Hat.members 90 = some "MINIME" ∧
    (∀ n, enumMemberName Hat.members 90 = some n → n = "MINIME") ∧
    ∀ r, PlayerPrefs.from_string s = .ok r →
      r.hat = 90 ∧ enumMemberName Hat.members r.hat = some "MINIME" := by
  refine ⟨rfl, by decide, ?_, ?_⟩
  · intro n hn
    have hm : enumMemberName Hat.members 90 = some "MINIME" := by decide
    rw [hm] at hn
    exact ((Option.some.injEq _ _).mp hn).symm
  · intro r hok
    have hlen := from_list_ok_len hok
    have hfacts := convertFields_ok (from_list_ok_conv hok hlen)
    obtain ⟨-, -, -, -, -, -, -, -, -, -, -, -, h10, -, -, -, -, -, -, -,
      -, -, -, -, -, -, -, -, -, -, -, -⟩ := hfacts
    rw [token_of_get? hlen (by omega) ht] at h10
    have h90 : pyInt "90" = .ok 90 := by decide
    rw [h90] at h10
    have hhat : r.hat = 90 := ((Except.ok.injEq _ _).mp h10).symm
    refine ⟨hhat, by rw [hhat]; decide⟩

/-- C8 witness: the hat-90 determinism instantiated at the sample line
with hat token `90`. -/
theorem hat90_deterministic_witness :
    ((splitComma hat90Str.data).map String.mk)[10]? = some "90" ∧
      ∀ r, PlayerPrefs.from_string hat90Str = .ok r → r.hat = 90 ∧
        enumMemberName Hat.members r.hat = some "MINIME" :=
  ⟨by decide, (hat90_deterministic hat90Str (by decide)).2.2.2⟩

/-- The sample line with the boolean field at position 4 replaced by the
lowercase token `true`. -/
def trueLowerStr : String :=
  "Bob,1,2,0,true,False,True,0,False,True,30,100,100,0,0,3,0,True,0,False,0,0"

/-- C3 counterexample: decoding a line whose boolean token is `true`
fails via the `BOOL` dict lookup, which raises `KeyError` — not a
`ValueError`-class error as claimed. -/
theorem bool_keyerror_cex :
    PlayerPrefs.from_string trueLowerStr = .error .boolKeyLookup ∧
    ErrKind.pyClass .boolKeyLookup = .keyError ∧
    ErrKind.pyClass .boolKeyLookup ≠ .valueError := by
  refine ⟨by decide, rfl, by decide⟩

/-- C3 (amended): for every input of 22 comma-separated fields in which a
boolean-position token (fields 4, 5, 6, 8, 9, 17, 19) is any text other
than exactly `True` or `False`, decode fails; the failure raised at the
boolean lookup is a `KeyError` (mapping-lookup error), not a
`ValueError`-class error. -/
theorem bool_strictness_amended (s : String) (i : Nat) (t : String)
    (_hlen22 : ((splitComma s.data).map String.mk).length = 22)
    (hi : i ∈ ([4, 5, 6, 8, 9, 17, 19] : List Nat))
    (ht : ((splitComma s.data).map String.mk)[i]? = some t)
    (hbad1 : t ≠ "True") (hbad2 : t ≠ "False") :
    (∀ r, PlayerPrefs.from_string s ≠ .ok r) ∧
    BOOL t = .error .boolKeyLookup ∧
    ErrKind.pyClass .boolKeyLookup = .keyError := by
  refine ⟨?_, BOOL_of_bad hbad1 hbad2, rfl⟩
  intro r hok
  have hlen := from_list_ok_len hok
  have hfacts := convertFields_ok (from_list_ok_conv hok hlen)
  obtain ⟨-, -, -, -, -, -, hB4, hB5, hB6, -, hB8, hB9, -, -, -, -, -, -,
    -, -, -, -, -, -, -, -, hB17, -, -, hB19, -, -⟩ := hfacts
  have hBt : BOOL t = .error .boolKeyLookup := BOOL_of_bad hbad1 hbad2
  fin_cases hi
  · rw [token_of_get? hlen (by omega) ht] at hB4
    exact absurd (hB4.symm.trans hBt) (by simp)
  · rw [token_of_get? hlen (by omega) ht] at hB5
    exact absurd (hB5.symm.trans hBt) (by simp)
  · rw [token_of_get? hlen (by omega) ht] at hB6
    exact absurd (hB6.symm.trans hBt) (by simp)
  · rw [token_of_get? hlen (by omega) ht] at hB8
    exact absurd (hB8.symm.trans hBt) (by simp)
  · rw [token_of_get? hlen (by omega) ht] at hB9
    exact absurd (hB9.symm.trans hBt) (by simp)
  · rw [token_of_get? hlen (by omega) ht] at hB17
    exact absurd (hB17.symm.trans hBt) (by simp)
  · rw [token_of_get? hlen (by omega) ht] at hB19
    exact absurd (hB19.symm.trans hBt) (by simp)

/-- C3 witness: the amended boolean-strictness statement instantiated at
the sample line with token `true` at field 4. -/
theorem bool_strictness_amended_witness :
    ((splitComma trueLowerStr.data).map String.mk).length = 22 ∧
      (∀ r, PlayerPrefs.from_string trueLowerStr ≠ .ok r) :=
  ⟨by decide,
   (bool_strictness_amended trueLowerStr 4 "true" (by decide) (by decide)
     (by decide) (by decide) (by decide)).1⟩

/-- C2 counterexample: the `@dataclass`-generated constructor performs no
validation — constructing a record whose `color` is the undefined code 12
succeeds (no error is raised), refuting "construction fails for any enum
value that is not a defined code". -/
theorem dataclass_init_no_validation :
    dataclassInit "Bob" 1 12 0 true false true 0 false true 30 100 100 0 0
        3 0 true 0 false 0 0 =
      .ok ⟨"Bob", 1, 12, 0, true, false, true, 0, false, true, 30, 100,
           100, 0, 0, 3, 0, true, 0, false, 0, 0⟩ ∧
    isEnumCode Color.members 12 = false := by
  exact ⟨rfl, by decide⟩

lemma enumOfCode_isOk (m : List (String × Int)) (c : Int) :
    (enumOfCode m c).isOk = isEnumCode m c := by
  unfold enumOfCode
  by_cases h : isEnumCode m c <;> simp [h, Except.isOk, Except.toBool]

/-- C2 (amended): the Record (dataclass) constructor itself never fails,
whatever field values it is given; construction-time validation lives in
the typed-value constructors, which are the very functions decode uses:
calling an enumeration succeeds exactly on its defined codes, and `U8`
construction succeeds exactly on `[0, 255]`. -/
theorem value_constructors_validate (nm : String)
    (control color unknown3 : Int) (unknown4 unknown5 unknown6 : Bool)
    (unknown7 : Int) (unknown8 unknown9 : Bool)
    (hat sfx music unknown13 unknown14 skin pet : Int)
    (censor_chat : Bool) (language : Int) (vsync : Bool)
    (unknown20 unknown21 : Int) (c : Int) :
    (dataclassInit nm control color unknown3 unknown4 unknown5 unknown6
        unknown7 unknown8 unknown9 hat sfx music unknown13 unknown14 skin
        pet censor_chat language vsync unknown20 unknown21).isOk = true ∧
    (Control.ofCode c).isOk = isEnumCode Control.members c ∧
    (Color.ofCode c).isOk = isEnumCode Color.members c ∧
    (Hat.ofCode c).isOk = isEnumCode Hat.members c ∧
    (Skin.ofCode c).isOk = isEnumCode Skin.members c ∧
    (Pet.ofCode c).isOk = isEnumCode Pet.members c ∧
    (Language.ofCode c).isOk = isEnumCode Language.members c ∧
    ((U8.mk c).isOk = true ↔ 0 ≤ c ∧ c ≤ 255) := by
  refine ⟨rfl, enumOfCode_isOk _ _, enumOfCode_isOk _ _,
    enumOfCode_isOk _ _, enumOfCode_isOk _ _, enumOfCode_isOk _ _,
    enumOfCode_isOk _ _, ?_⟩
  unfold U8.mk
  by_cases hc : 0 ≤ c ∧ c ≤ 255 <;> simp [hc, Except.isOk, Except.toBool]

/-- C9: Alias preservation — both hat names `MINIME` and `NINJA_MASK` are
retained in the `Hat` enumeration, lookup by either name succeeds and
resolves to the shared code 90, and lookup of code 90 succeeds. -/
theorem hat_alias_preserved :
    ("MINIME", (90 : Int)) ∈ Hat.members ∧
    ("NINJA_MASK", (90 : Int)) ∈ Hat.members ∧
    enumCodeOfName Hat.members "MINIME" = some 90 ∧
    enumCodeOfName Hat.members "NINJA_MASK" = some 90 ∧
    Hat.MINIME = 90 ∧ Hat.NINJA_MASK = 90 ∧
    enumMemberName Hat.members 90 = some "MINIME" := by
  refine ⟨by decide, by decide, by decide, by decide, rfl, rfl, by decide⟩
